import Mathlib

/-!
Shallow embedding of `sodium-alloc` (src/lib.rs): a Rust `Allocator`
implementation that routes allocation through libsodium's guarded-heap
functions (`sodium_init`, `sodium_malloc`, `sodium_free`).

The external libsodium facility is modelled as an oracle: the return value of
`sodium_init` and the pointer (address, with `0` standing for NULL) that
`sodium_malloc` returns for a given requested size.  The allocator's
operations are embedded as pure functions that, besides their result, emit
the ordered list of facility calls they perform, so that claims about which
facility operations run, with which arguments and in which order, are
statable.
-/

/-- The libsodium facility as seen by this crate: the value `sodium_init()`
returns in this process, and the address `sodium_malloc(size)` returns for a
requested size (`0` models a NULL return). -/
structure Facility where
  sodium_init : Int
  sodium_malloc : Nat → Nat

/-- One call into the libsodium facility, in the order the Rust code makes
them: `sodium_init`, `sodium_malloc size`, or `sodium_free ptr`. -/
inductive FacilityCall where
  | init : FacilityCall
  | malloc : Nat → FacilityCall
  | free : Nat → FacilityCall
deriving DecidableEq, Repr

/-- `std::alloc::AllocError`: the single, fieldless allocation-error value. -/
inductive AllocError where
  | allocError : AllocError
deriving DecidableEq, Repr, Fintype

/-- `std::alloc::Layout`: a requested size in bytes and an alignment.
Rust's `Layout` invariant (not re-checked by this crate) is that the
alignment is a positive power of two; theorems carry that as a hypothesis
where it matters. -/
structure Layout where
  size : Nat
  align : Nat
deriving DecidableEq, Repr

/-- `Layout::pad_to_align`: round the size up to the next multiple of the
alignment.  The Rust source computes
`(size + align - 1) & !(align - 1)`, which for a positive power-of-two
alignment (the `Layout` invariant) equals
`((size + align - 1) / align) * align`, the form used here. -/
def Layout.pad_to_align (l : Layout) : Layout :=
  ⟨((l.size + l.align - 1) / l.align) * l.align, l.align⟩

/-- The fat pointer `NonNull<[u8]>` returned by `allocate`: a base address
and the reported length of the region. -/
structure AllocResult where
  ptr : Nat
  len : Nat
deriving DecidableEq, Repr

/-- `fn init() -> Result<(), AllocError>`:
`if sodium_init() >= 0 { Ok(()) } else { Err(AllocError) }`. -/
def init (f : Facility) : Except AllocError Unit :=
  if f.sodium_init ≥ 0 then Except.ok () else Except.error AllocError.allocError

namespace SodiumAllocator

/-- `SodiumAllocator::allocate`: run `init()?`, pad the layout to its
alignment, request `layout.size()` (the padded size) bytes from
`sodium_malloc`, fail on NULL, and otherwise return a slice pointer of the
padded length.  The second component is the ordered list of facility calls
performed. -/
def allocate (f : Facility) (layout : Layout) :
    Except AllocError AllocResult × List FacilityCall :=
  match init f with
  | Except.error e => (Except.error e, [FacilityCall.init])
  | Except.ok () =>
    let layout := layout.pad_to_align
    let ptr := f.sodium_malloc layout.size
    if ptr = 0 then
      (Except.error AllocError.allocError, [FacilityCall.init, FacilityCall.malloc layout.size])
    else
      (Except.ok ⟨ptr, layout.size⟩, [FacilityCall.init, FacilityCall.malloc layout.size])

/-- `SodiumAllocator::deallocate`: hand the pointer to `sodium_free`; the
layout argument is ignored (`_layout` in the source).  Returns unit and the
single facility call made. -/
def deallocate (ptr : Nat) (_layout : Layout) : Unit × List FacilityCall :=
  ((), [FacilityCall.free ptr])

end SodiumAllocator

-- Sanity checks of the embedding on concrete inputs.
example :
    SodiumAllocator.allocate ⟨0, fun _ => 4096⟩ ⟨13, 4⟩ =
      (Except.ok ⟨4096, 16⟩, [FacilityCall.init, FacilityCall.malloc 16]) := rfl

example :
    SodiumAllocator.allocate ⟨-1, fun _ => 4096⟩ ⟨13, 4⟩ =
      (Except.error AllocError.allocError, [FacilityCall.init]) := rfl

example :
    SodiumAllocator.allocate ⟨1, fun _ => 0⟩ ⟨0, 1⟩ =
      (Except.error AllocError.allocError,
        [FacilityCall.init, FacilityCall.malloc 0]) := rfl

example :
    SodiumAllocator.allocate ⟨0, fun _ => 8192⟩ ⟨0, 1⟩ =
      (Except.ok ⟨8192, 0⟩, [FacilityCall.init, FacilityCall.malloc 0]) := rfl

example : SodiumAllocator.deallocate 4096 ⟨13, 4⟩ = ((), [FacilityCall.free 4096]) := rfl

/-! Helper lemmas about the padded size and the shape of `allocate`. -/

lemma pad_size_eq (l : Layout) :
    (l.pad_to_align).size = ((l.size + l.align - 1) / l.align) * l.align := rfl

lemma pad_align_eq (l : Layout) : (l.pad_to_align).align = l.align := rfl

lemma pad_dvd (l : Layout) : l.align ∣ (l.pad_to_align).size :=
  dvd_mul_left _ _

lemma pad_ge (l : Layout) (ha : 0 < l.align) : l.size ≤ (l.pad_to_align).size := by
  have h1 := Nat.div_add_mod (l.size + l.align - 1) l.align
  have h2 := Nat.mod_lt (l.size + l.align - 1) ha
  rw [pad_size_eq, Nat.mul_comm]
  omega

lemma pad_lt (l : Layout) (ha : 0 < l.align) :
    (l.pad_to_align).size < l.size + l.align := by
  have h1 := Nat.div_add_mod (l.size + l.align - 1) l.align
  have h2 := Nat.mod_lt (l.size + l.align - 1) ha
  rw [pad_size_eq, Nat.mul_comm]
  omega

/-- Closed-form characterization of `allocate`: the two branch points are
the sign of the facility's `sodium_init` result and whether `sodium_malloc`
returns NULL for the padded size. -/
lemma allocate_eq (f : Facility) (layout : Layout) :
    SodiumAllocator.allocate f layout =
      if f.sodium_init ≥ 0 then
        ((if f.sodium_malloc (layout.pad_to_align).size = 0 then
            Except.error AllocError.allocError
          else
            Except.ok ⟨f.sodium_malloc (layout.pad_to_align).size,
              (layout.pad_to_align).size⟩),
         [FacilityCall.init, FacilityCall.malloc (layout.pad_to_align).size])
      else (Except.error AllocError.allocError, [FacilityCall.init]) := by
  simp only [SodiumAllocator.allocate, init]
  by_cases h : f.sodium_init ≥ 0
  · rw [if_pos h, if_pos h]
    by_cases h2 : f.sodium_malloc (layout.pad_to_align).size = 0
    · rw [if_pos h2, if_pos h2]
    · rw [if_neg h2, if_neg h2]
  · rw [if_neg h, if_neg h]

/-! Theorems for the claims. -/

/-- C1: for every allocation request whose alignment is positive (a power of
two under Rust's `Layout` invariant), `allocate` rounds the size up to the
next multiple of the alignment, requests exactly that padded size from the
facility, and on success reports the padded size — not the originally
requested size — as the region's length. -/
theorem allocate_pads_to_align (f : Facility) (layout : Layout)
    (ha : 0 < layout.align) (r : AllocResult) (tr : List FacilityCall)
    (hok : SodiumAllocator.allocate f layout = (Except.ok r, tr)) :
    r.len = (layout.pad_to_align).size ∧
    layout.align ∣ r.len ∧ layout.size ≤ r.len ∧ r.len < layout.size + layout.align ∧
    tr = [FacilityCall.init, FacilityCall.malloc (layout.pad_to_align).size] := by
  rw [allocate_eq] at hok
  split at hok
  · split at hok
    · simp at hok
    · simp only [Prod.mk.injEq, Except.ok.injEq] at hok
      obtain ⟨rfl, rfl⟩ := hok
      exact ⟨rfl, pad_dvd layout, pad_ge layout ha, pad_lt layout ha, rfl⟩
  · simp at hok

/-- Witness for C1: the facility returning address 4096, request
(size 13, align 4), padded size 16. -/
theorem allocate_pads_to_align_witness :
    (16 : Nat) = (Layout.pad_to_align ⟨13, 4⟩).size ∧
    4 ∣ (16 : Nat) ∧ 13 ≤ (16 : Nat) ∧ (16 : Nat) < 13 + 4 ∧
    [FacilityCall.init, FacilityCall.malloc 16] =
      [FacilityCall.init, FacilityCall.malloc (Layout.pad_to_align ⟨13, 4⟩).size] :=
  allocate_pads_to_align ⟨0, fun _ => 4096⟩ ⟨13, 4⟩ (by decide) ⟨4096, 16⟩
    [FacilityCall.init, FacilityCall.malloc 16] rfl

/-- C2: assuming the facility returns a pointer aligned to n whenever the
requested byte count is a multiple of n (libsodium places allocations at the
end of a page), every successful allocation from a positive-alignment layout
is aligned as requested and at least the originally requested size. -/
theorem allocate_aligned_and_big_enough (f : Facility) (layout : Layout)
    (ha : 0 < layout.align)
    (hfac : ∀ s n : Nat, n ∣ s → f.sodium_malloc s ≠ 0 → f.sodium_malloc s % n = 0)
    (r : AllocResult) (tr : List FacilityCall)
    (hok : SodiumAllocator.allocate f layout = (Except.ok r, tr)) :
    r.ptr % layout.align = 0 ∧ layout.size ≤ r.len := by
  rw [allocate_eq] at hok
  split at hok
  · split at hok
    · simp at hok
    · next h2 =>
      simp only [Prod.mk.injEq, Except.ok.injEq] at hok
      obtain ⟨rfl, rfl⟩ := hok
      exact ⟨hfac _ _ (pad_dvd layout) h2, pad_ge layout ha⟩
  · simp at hok

/-- Witness for C2: a facility mapping a request for s bytes to address
65536·s, request (size 13, align 4): the returned address 1048576 is a
multiple of 4 and the length 16 covers the requested 13 bytes. -/
theorem allocate_aligned_and_big_enough_witness :
    (1048576 : Nat) % 4 = 0 ∧ (13 : Nat) ≤ 16 :=
  allocate_aligned_and_big_enough ⟨0, fun s => s * 65536⟩ ⟨13, 4⟩ (by decide)
    (fun _ n hd hne => Nat.mod_eq_zero_of_dvd (hd.mul_right 65536))
    ⟨1048576, 16⟩ [FacilityCall.init, FacilityCall.malloc 16] rfl

/-- C3: `allocate` returns an error exactly when initialization fails or the
facility returns NULL for the padded size; every failure carries the single
uniform `AllocError` value, the only inhabitant of the error type, and the
result is defined (no panic) on every input. -/
theorem allocate_error_characterization (f : Facility) (layout : Layout) :
    (SodiumAllocator.allocate f layout).1 =
      (if f.sodium_init < 0 ∨ f.sodium_malloc (layout.pad_to_align).size = 0 then
        Except.error AllocError.allocError
      else
        Except.ok ⟨f.sodium_malloc (layout.pad_to_align).size, (layout.pad_to_align).size⟩) ∧
    Fintype.card AllocError = 1 := by
  refine ⟨?_, rfl⟩
  rw [allocate_eq]
  by_cases h : f.sodium_init ≥ 0
  · by_cases h2 : f.sodium_malloc (layout.pad_to_align).size = 0
    · rw [if_pos h, if_pos h2, if_pos (Or.inr h2)]
    · rw [if_pos h, if_neg h2, if_neg (not_or.mpr ⟨not_lt.mpr h, h2⟩)]
  · rw [if_neg h, if_pos (Or.inl (not_le.mp h))]

/-- C4: on every `allocate` call the first facility call is `sodium_init`;
when initialization fails, `allocate` returns the allocation error with the
trace containing only that init call — `sodium_malloc` is never invoked. -/
theorem allocate_init_first_and_fails_fast (f g : Facility) (layout : Layout)
    (hfail : g.sodium_init < 0) :
    (SodiumAllocator.allocate f layout).2.head? = some FacilityCall.init ∧
    SodiumAllocator.allocate g layout =
      (Except.error AllocError.allocError, [FacilityCall.init]) := by
  constructor
  · rw [allocate_eq]
    by_cases h : f.sodium_init ≥ 0
    · rw [if_pos h]; rfl
    · rw [if_neg h]; rfl
  · rw [allocate_eq, if_neg (not_le.mpr hfail)]

/-- Witness for C4: a facility whose initialization succeeds (trace starts
with init) and one whose `sodium_init` returns -1 (error, no malloc call). -/
theorem allocate_init_first_and_fails_fast_witness :
    (SodiumAllocator.allocate ⟨0, fun _ => 4096⟩ ⟨13, 4⟩).2.head? = some FacilityCall.init ∧
    SodiumAllocator.allocate ⟨-1, fun _ => 4096⟩ ⟨13, 4⟩ =
      (Except.error AllocError.allocError, [FacilityCall.init]) :=
  allocate_init_first_and_fails_fast ⟨0, fun _ => 4096⟩ ⟨-1, fun _ => 4096⟩ ⟨13, 4⟩
    (by decide)

/-- C5: the zero-byte request (0, 1) is padded to 0 and passed to the
facility (not rejected); given successful initialization and a non-NULL
return, `allocate` succeeds — distinguishable from the error case — with
reported length exactly 0. -/
theorem allocate_zero_size (f : Facility) (hinit : f.sodium_init ≥ 0)
    (hptr : f.sodium_malloc 0 ≠ 0) :
    SodiumAllocator.allocate f ⟨0, 1⟩ =
      (Except.ok ⟨f.sodium_malloc 0, 0⟩, [FacilityCall.init, FacilityCall.malloc 0]) := by
  have hpad : (Layout.pad_to_align ⟨0, 1⟩).size = 0 := rfl
  rw [allocate_eq, hpad, if_pos hinit, if_neg hptr]

/-- Witness for C5: facility with successful init returning address 8192. -/
theorem allocate_zero_size_witness :
    SodiumAllocator.allocate ⟨0, fun _ => 8192⟩ ⟨0, 1⟩ =
      (Except.ok ⟨8192, 0⟩, [FacilityCall.init, FacilityCall.malloc 0]) :=
  allocate_zero_size ⟨0, fun _ => 8192⟩ (by decide) (by decide)

/-- C6: `deallocate` performs exactly one facility call — `sodium_free` on
the given pointer — returns unit, and is total (cannot fail or panic). -/
theorem deallocate_frees_exactly (ptr : Nat) (layout : Layout) :
    SodiumAllocator.deallocate ptr layout = ((), [FacilityCall.free ptr]) := rfl

/-- C9: `deallocate` ignores its layout argument entirely: for any pointer
and any two layouts, the result and the facility calls are identical. -/
theorem deallocate_layout_independent (ptr : Nat) (l1 l2 : Layout) :
    SodiumAllocator.deallocate ptr l1 = SodiumAllocator.deallocate ptr l2 := rfl

/-- C10: `init` succeeds exactly when `sodium_init` returns a value ≥ 0
(covering both the first-call success code 0 and the already-initialized
code 1) and returns the allocation error exactly when the value is
negative; and every `allocate` call re-invokes `sodium_init` as its first
facility call, relying on its idempotence. -/
theorem init_nonneg_and_reinvoked (f : Facility) (layout : Layout) :
    (init f = Except.ok () ↔ 0 ≤ f.sodium_init) ∧
    (init f = Except.error AllocError.allocError ↔ f.sodium_init < 0) ∧
    (SodiumAllocator.allocate f layout).2.head? = some FacilityCall.init := by
  refine ⟨?_, ?_, ?_⟩
  · unfold init
    by_cases h : f.sodium_init ≥ 0
    · simp [h]
    · simp [h]
  · unfold init
    by_cases h : f.sodium_init ≥ 0
    · simp [h, not_lt.mpr h]
    · simp [h, not_le.mp h]
  · rw [allocate_eq]
    by_cases h : f.sodium_init ≥ 0
    · rw [if_pos h]; rfl
    · rw [if_neg h]; rfl

/-! The inherited default resize path (spec §4.4).  The crate implements
only the two required methods and inherits the allocator capability's
provided grow/shrink, whose code lives in the Rust standard library, not in
this crate's source; it is therefore modelled from the spec. -/

/-- Modelled from the spec: the inherited default grow/shrink composition of
the allocator capability (Rust std Allocator's provided methods, absent
from this crate's source): allocate a new region of the new layout, copy
the overlapping prefix of the old contents into it, then deallocate the old
region; if the new allocation fails, propagate the error without touching
the old region.  The old region's bytes are `oldContents`; the copied bytes
of the new region are returned alongside the allocation result. -/
def resize (f : Facility) (oldPtr : Nat) (oldContents : List Nat)
    (oldLayout newLayout : Layout) :
    Except AllocError (AllocResult × List Nat) × List FacilityCall :=
  match SodiumAllocator.allocate f newLayout with
  | (Except.error e, tr) => (Except.error e, tr)
  | (Except.ok r, tr) =>
    (Except.ok (r, oldContents.take (min oldLayout.size newLayout.size)),
     tr ++ (SodiumAllocator.deallocate oldPtr oldLayout).2)

lemma allocate_trace_no_free (f : Facility) (l : Layout) (p : Nat) :
    ((SodiumAllocator.allocate f l).2).count (FacilityCall.free p) = 0 := by
  rw [allocate_eq]
  by_cases h : f.sodium_init ≥ 0
  · rw [if_pos h]; simp [List.count_cons]
  · rw [if_neg h]; simp [List.count_cons]

/-- C7: the default resize composition allocates a fresh region of the new
layout, copies the overlapping prefix of the old contents, and frees the
old region exactly once, as the last facility call; when the fresh
allocation fails the error propagates and the old region is never freed. -/
theorem resize_default_composition (f g : Facility) (oldPtr : Nat)
    (cs : List Nat) (oldL newL : Layout)
    (r : AllocResult) (newC : List Nat) (tr : List FacilityCall)
    (hok : resize f oldPtr cs oldL newL = (Except.ok (r, newC), tr))
    (e : AllocError) (tr' : List FacilityCall)
    (herr : resize g oldPtr cs oldL newL = (Except.error e, tr')) :
    (SodiumAllocator.allocate f newL).1 = Except.ok r ∧
    newC = cs.take (min oldL.size newL.size) ∧
    tr = (SodiumAllocator.allocate f newL).2 ++ (SodiumAllocator.deallocate oldPtr oldL).2 ∧
    tr.count (FacilityCall.free oldPtr) = 1 ∧
    (SodiumAllocator.allocate g newL).1 = Except.error e ∧
    tr' = (SodiumAllocator.allocate g newL).2 ∧
    tr'.count (FacilityCall.free oldPtr) = 0 := by
  unfold resize at hok herr
  cases e
  cases hma : SodiumAllocator.allocate f newL with
  | mk res tra =>
    rw [hma] at hok
    cases hmb : SodiumAllocator.allocate g newL with
    | mk res' trb =>
      rw [hmb] at herr
      have hcf : tra.count (FacilityCall.free oldPtr) = 0 := by
        have h0 := allocate_trace_no_free f newL oldPtr
        rw [hma] at h0
        exact h0
      have hcg : trb.count (FacilityCall.free oldPtr) = 0 := by
        have h0 := allocate_trace_no_free g newL oldPtr
        rw [hmb] at h0
        exact h0
      cases res with
      | error e0 => simp at hok
      | ok r0 =>
        simp only [Prod.mk.injEq, Except.ok.injEq] at hok
        obtain ⟨⟨rfl, rfl⟩, rfl⟩ := hok
        cases res' with
        | ok r1 => simp at herr
        | error e1 =>
          cases e1
          simp only [Prod.mk.injEq, Except.error.injEq] at herr
          obtain ⟨-, rfl⟩ := herr
          refine ⟨rfl, rfl, rfl, ?_, rfl, rfl, hcg⟩
          simp [List.count_append, hcf, SodiumAllocator.deallocate, List.count_cons]

/-- Witness for C7: growing a 3-byte region (contents 1,2,3 and a stale
byte 4) at address 9000 to 6 bytes through a succeeding facility, and the
same resize through a facility whose initialization fails. -/
theorem resize_default_composition_witness :
    (SodiumAllocator.allocate ⟨0, fun _ => 4096⟩ ⟨6, 1⟩).1 = Except.ok ⟨4096, 6⟩ ∧
    [1, 2, 3] = List.take (min 3 6) [1, 2, 3, 4] ∧
    [FacilityCall.init, FacilityCall.malloc 6, FacilityCall.free 9000] =
      (SodiumAllocator.allocate ⟨0, fun _ => 4096⟩ ⟨6, 1⟩).2 ++
        (SodiumAllocator.deallocate 9000 ⟨3, 1⟩).2 ∧
    [FacilityCall.init, FacilityCall.malloc 6,
      FacilityCall.free 9000].count (FacilityCall.free 9000) = 1 ∧
    (SodiumAllocator.allocate ⟨-1, fun _ => 4096⟩ ⟨6, 1⟩).1 =
      Except.error AllocError.allocError ∧
    [FacilityCall.init] = (SodiumAllocator.allocate ⟨-1, fun _ => 4096⟩ ⟨6, 1⟩).2 ∧
    ([FacilityCall.init] : List FacilityCall).count (FacilityCall.free 9000) = 0 :=
  resize_default_composition ⟨0, fun _ => 4096⟩ ⟨-1, fun _ => 4096⟩ 9000
    [1, 2, 3, 4] ⟨3, 1⟩ ⟨6, 1⟩ ⟨4096, 6⟩ [1, 2, 3]
    [FacilityCall.init, FacilityCall.malloc 6, FacilityCall.free 9000] rfl
    AllocError.allocError [FacilityCall.init] rfl

/-! The facility's one-time initialization latch (spec §4.3).  The latch
lives inside libsodium's thread-safe, first-call-wins `sodium_init`, not in
this crate's source, so it is modelled from the spec. -/

/-- Modelled from the spec: the process-wide state of the facility's
one-time initialization latch (spec §4.3) together with the concurrent
first-time callers.  `latch` is the terminal outcome once reached (`none`
while uninitialized), `setupRuns` counts how many times the underlying
setup's side effects have executed, and `threads` holds one entry per
caller: `none` while its `sodium_init` call has not completed, `some b`
once it observed outcome `b`. -/
structure InitSystem where
  latch : Option Bool
  setupRuns : Nat
  threads : List (Option Bool)
deriving DecidableEq, Repr

/-- Modelled from the spec: one atomic `sodium_init` call completing for
pending thread `i`, under an arbitrary interleaving; `u` is the fixed
outcome of the underlying setup in this process.  A first caller (latch
unset) runs the setup's side effects once and installs the terminal
outcome; any later caller observes the installed outcome with no further
side effects. -/
inductive InitStep (u : Bool) : InitSystem → InitSystem → Prop where
  | first (s : InitSystem) (i : Nat) (hi : s.threads[i]? = some none)
      (hl : s.latch = none) :
      InitStep u s ⟨some u, s.setupRuns + 1, s.threads.set i (some u)⟩
  | observe (s : InitSystem) (i : Nat) (b : Bool) (hi : s.threads[i]? = some none)
      (hl : s.latch = some b) :
      InitStep u s ⟨some b, s.setupRuns, s.threads.set i (some b)⟩

/-- The fresh process: latch unset, no setup side effects, `n` pending
first-time callers. -/
def initSystem (n : Nat) : InitSystem :=
  ⟨none, 0, List.replicate n none⟩

/-- Invariant of the latch system: either nothing has happened yet, or the
setup has run exactly once, the latch holds its outcome, and every finished
thread observed exactly that outcome. -/
def InitInv (u : Bool) (s : InitSystem) : Prop :=
  (s.latch = none ∧ s.setupRuns = 0 ∧ ∀ x ∈ s.threads, x = none) ∨
  (s.latch = some u ∧ s.setupRuns = 1 ∧ ∀ x ∈ s.threads, x = none ∨ x = some u)

lemma initInv_initial (u : Bool) (n : Nat) : InitInv u (initSystem n) :=
  Or.inl ⟨rfl, rfl, fun _ hx => List.eq_of_mem_replicate hx⟩

lemma initInv_step (u : Bool) (s t : InitSystem) (h : InitStep u s t)
    (hinv : InitInv u s) : InitInv u t := by
  cases h with
  | first i hi hl =>
    rcases hinv with ⟨-, h2, h3⟩ | ⟨h1, -, -⟩
    · refine Or.inr ⟨rfl, by rw [h2], fun x hx => ?_⟩
      rcases List.mem_or_eq_of_mem_set hx with hx' | hx'
      · exact Or.inl (h3 x hx')
      · exact Or.inr hx'
    · rw [hl] at h1
      cases h1
  | observe i b hi hl =>
    rcases hinv with ⟨h1, -, -⟩ | ⟨h1, h2, h3⟩
    · rw [hl] at h1
      cases h1
    · rw [hl] at h1
      obtain rfl : b = u := by injection h1
      refine Or.inr ⟨rfl, h2, fun x hx => ?_⟩
      rcases List.mem_or_eq_of_mem_set hx with hx' | hx'
      · exact h3 x hx'
      · exact Or.inr hx'

lemma initInv_reach (u : Bool) (s t : InitSystem)
    (h : Relation.ReflTransGen (InitStep u) s t) (hinv : InitInv u s) :
    InitInv u t := by
  induction h with
  | refl => exact hinv
  | tail _ hstep ih => exact initInv_step u _ _ hstep ih

/-- C8: in every interleaving of concurrent first-time callers that starts
from a fresh process and ends with every caller's init call completed, the
underlying setup's side effects executed exactly once and every caller
observed the same terminal outcome `u`. -/
theorem init_exactly_once_consistent (u : Bool) (n : Nat) (final : InitSystem)
    (hreach : Relation.ReflTransGen (InitStep u) (initSystem n) final)
    (hne : final.threads ≠ [])
    (hdone : ∀ x ∈ final.threads, x ≠ none) :
    final.setupRuns = 1 ∧
    final.threads = List.replicate final.threads.length (some u) := by
  have hinv := initInv_reach u _ _ hreach (initInv_initial u n)
  rcases hinv with ⟨-, -, h3⟩ | ⟨-, h2, h3⟩
  · obtain ⟨x, hx⟩ := List.exists_mem_of_ne_nil _ hne
    exact absurd (h3 x hx) (hdone x hx)
  · refine ⟨h2, List.eq_replicate_of_mem fun x hx => ?_⟩
    rcases h3 x hx with h | h
    · exact absurd h (hdone x hx)
    · exact h

/-- Witness for C8: two threads, setup outcome success; the interleaving in
which thread 0 runs the setup and thread 1 observes the latch. -/
theorem init_exactly_once_consistent_witness :
    (⟨some true, 1, [some true, some true]⟩ : InitSystem).setupRuns = 1 ∧
    (⟨some true, 1, [some true, some true]⟩ : InitSystem).threads =
      List.replicate
        (⟨some true, 1, [some true, some true]⟩ : InitSystem).threads.length
        (some true) :=
  init_exactly_once_consistent true 2 ⟨some true, 1, [some true, some true]⟩
    (Relation.ReflTransGen.tail
      (Relation.ReflTransGen.tail Relation.ReflTransGen.refl
        (InitStep.first (initSystem 2) 0 rfl rfl))
      (InitStep.observe ⟨some true, 1, [some true, none]⟩ 1 true rfl rfl))
    (by decide) (by decide)
